import Mathlib

/-!
Verification of the ShaiMindLit chat pipeline: the Emotion Engine and
Heuristic Responder (emotion_manager.py), the Response Generator error
mapping (llm_handler.py), and the response cleaner plus the per-message
pipeline of the UI controller (app.py).

Python strings are modelled as lists of characters (an ASCII model of
lower/isalpha/whitespace, which covers every string the program
manipulates).  Every Python text operation used by the source is embedded
character by character; the LLM network call is the one external effect
and is modelled as an oracle value describing the outcome the OpenAI
client would deliver.
-/

namespace ShaiMind

/-- A Python string, modelled as its list of characters. -/
abbrev Str := List Char

/-- Model of the Python str.lower() method (ASCII model). -/
def toLowerStr (s : Str) : Str := s.map Char.toLower

/-- Word character of the regex class used by the Emotion Engine patterns
(ASCII model of the re module class matching letters, digits and the
underscore). -/
def isWordChar (c : Char) : Bool := c.isAlphanum || c == '_'

/-- Model of Python str.startswith: p is a leading segment of s. -/
def strStarts : Str → Str → Bool
  | [], _ => true
  | _ :: _, [] => false
  | a :: p, b :: s => a == b && strStarts p s

/-- Model of Python str.endswith: p is a trailing segment of s. -/
def strEnds (p s : Str) : Bool := strStarts p.reverse s.reverse

/-- Model of the Python operator "pat in s": pat occurs contiguously in s. -/
def containsSub (pat : Str) : Str → Bool
  | [] => strStarts pat []
  | c :: t => strStarts pat (c :: t) || containsSub pat t

/-- Model of Python str.strip(): drop whitespace from both ends. -/
def pyStrip (s : Str) : Str :=
  ((s.dropWhile Char.isWhitespace).reverse.dropWhile Char.isWhitespace).reverse

/-- Model of Python str.isalpha(): nonempty and all alphabetic (ASCII model). -/
def pyIsAlpha (s : Str) : Bool := !s.isEmpty && s.all Char.isAlpha

/-- Model of Python str.removeprefix. -/
def removePrefixIf (p s : Str) : Str :=
  if strStarts p s then s.drop p.length else s

/-- Model of Python str.removesuffix. -/
def removeSuffixIf (p s : Str) : Str :=
  if strEnds p s then s.take (s.length - p.length) else s

/-- The trailing character test of a word-boundary pattern: the character
right after the matched word, if any, is not a word character. -/
def boundAfter (w s : Str) : Bool :=
  match s.drop w.length with
  | [] => true
  | c :: _ => !isWordChar c

/-- Scanner for the regex search of a pattern of the shape
boundary-w-boundary: prevOk records whether the character before the
current position (if any) was not a word character. -/
def hasWordAux (w : Str) : Bool → Str → Bool
  | prevOk, [] => prevOk && strStarts w [] && boundAfter w []
  | prevOk, c :: t =>
      (prevOk && strStarts w (c :: t) && boundAfter w (c :: t)) ||
        hasWordAux w (!isWordChar c) t

/-- Model of re.search of the Emotion Engine patterns: the trigger word w
(all of whose characters are word characters) occurs in s delimited by
word boundaries. -/
def hasWord (w s : Str) : Bool := hasWordAux w true s

/-- The persona record loaded from an identity file (personality_manager
PersonalityState), as read and mutated by the pipeline. -/
structure PersonalityState where
  name : Str
  traits : List Str
  anchors : List Str
  reasoning_style : Str
  system_prompt : Str
  emotional_state : Str
  emotional_intensity : Int
deriving DecidableEq

/-- The trigger table of update_emotional_state (emotion_manager.py,
lines 7-14), in the declaration order of the Python dict: the regex
word of each pattern, the new emotion label and the intensity delta. -/
def triggers : List (Str × Str × Int) :=
  [("death".data, "melancholy".data, 2),
   ("love".data, "nostalgic".data, 1),
   ("fear".data, "anxious".data, 1),
   ("hope".data, "reflective".data, -1),
   ("raven".data, "curious".data, 1),
   ("mortality".data, "introspective".data, 2)]

/-- The clamp of emotion_manager.py lines 20-22:
max(0, min(current + delta, 10)). -/
def clampIntensity (x : Int) : Int := max 0 (min x 10)

/-- One loop test of emotion_manager.py line 18: the rule pattern is
searched in the lowercased input. -/
def ruleFires (input : Str) (r : Str × Str × Int) : Bool :=
  hasWord r.1 (toLowerStr input)

/-- emotion_manager.update_emotional_state: scan the trigger table in
order, apply the first firing rule to the state (new label, clamped
intensity) and stop; leave the state unchanged when no rule fires. -/
def update_emotional_state (ps : PersonalityState) (input : Str) : PersonalityState :=
  match triggers.find? (ruleFires input) with
  | none => ps
  | some r =>
      { ps with emotional_state := r.2.1,
                emotional_intensity := clampIntensity (ps.emotional_intensity + r.2.2) }

/-- The rendered template of the death heuristic (emotion_manager.py
line 30), parameterized by the persona name. -/
def deathTemplate (name : Str) : Str :=
  "Ah, death! The eternal muse of my musings. ".data ++ name ++
    " cannot help but dwell upon its mystery.".data

/-- The rendered template of the love heuristic (emotion_manager.py line 31). -/
def loveTemplate : Str :=
  "Love, that bittersweet elixir, fills my heart with both longing and sorrow.".data

/-- The rendered template of the raven heuristic (emotion_manager.py line 32). -/
def ravenTemplate : Str :=
  "The raven, ever watchful, remains a steadfast symbol of my contemplations.".data

/-- emotion_manager.apply_decision_heuristics: case-insensitive substring
check of the three triggers in dict order against the input; the first
hit returns its rendered template, otherwise None. -/
def apply_decision_heuristics (ps : PersonalityState) (input : Str) : Option Str :=
  if containsSub "death".data (toLowerStr input) then some (deathTemplate ps.name)
  else if containsSub "love".data (toLowerStr input) then some loveTemplate
  else if containsSub "raven".data (toLowerStr input) then some ravenTemplate
  else none

/-- Suffix of s after the first occurrence of sep consumed by a
left-to-right scan, none when sep does not occur (the single step of the
Python str.split scan). -/
def dropThroughFirst (sep : Str) : Str → Option Str
  | [] => none
  | c :: t =>
      if strStarts sep (c :: t) then some ((c :: t).drop sep.length)
      else dropThroughFirst sep t

/-- Fuelled left-to-right scan consuming non-overlapping occurrences of
sep; returns the text after the last consumed occurrence.  Every consuming
step shortens the text, so fuel equal to the length of s suffices. -/
def lastSegFuel (sep : Str) : Nat → Str → Str
  | 0, s => s
  | Nat.succ fuel, s =>
      match dropThroughFirst sep s with
      | none => s
      | some r => lastSegFuel sep fuel r

/-- Model of the Python idiom s.split(sep)[-1]: the last field of the
split, that is the text after the last occurrence of sep consumed by the
left-to-right non-overlapping scan of str.split. -/
def lastSeg (sep s : Str) : Str := lastSegFuel sep s.length s

/-- One marker step of extract_final_response (app.py lines 124-135):
when the marker occurs, keep only the stripped text after its last
occurrence, as in s.split(marker)[-1].strip(); otherwise leave s alone. -/
def cutAfter (sep s : Str) : Str :=
  if containsSub sep s then pyStrip (lastSeg sep s) else s

/-- The language-tag heuristic of app.py lines 141-146: when the text has
more than one line and its first line, stripped and lowercased, is a
short single-token alphabetic string, drop that first line and strip. -/
def dropLangLine (s : Str) : Str :=
  if s.contains '\n' then
    if (toLowerStr (pyStrip (s.takeWhile (fun c => c != '\n')))).length < 20 &&
         !((toLowerStr (pyStrip (s.takeWhile (fun c => c != '\n')))).contains ' ') &&
         pyIsAlpha (toLowerStr (pyStrip (s.takeWhile (fun c => c != '\n')))) then
      pyStrip (s.drop ((s.takeWhile (fun c => c != '\n')).length + 1))
    else s
  else s

/-- The triple-backtick fence marker of app.py line 138. -/
def fenceMarker : Str := "```".data

/-- The fence-stripping step of extract_final_response (app.py lines
138-146): when the text starts and ends with the fence, remove one fence
from each end, strip, and apply the language-tag heuristic. -/
def fenceStage (s : Str) : Str :=
  if strStarts fenceMarker s && strEnds fenceMarker s then
    dropLangLine (pyStrip (removeSuffixIf fenceMarker (removePrefixIf fenceMarker s)))
  else s

/-- The literal marker of app.py line 125. -/
def userMarker : Str := "USER MESSAGE:".data

/-- The persona marker of app.py line 129, an f-string over the persona name. -/
def respondMarker (name : Str) : Str :=
  "Respond as ".data ++ name ++ ",".data

/-- The literal marker of app.py line 134. -/
def responseMarker : Str := "RESPONSE:".data

/-- app.extract_final_response (app.py lines 117-148): the three marker
cuts in order, then the fence strip with the language-tag drop.  The
persona name enters through the second marker. -/
def extract_final_response (name raw : Str) : Str :=
  fenceStage (cutAfter responseMarker (cutAfter (respondMarker name) (cutAfter userMarker raw)))

/-- Outcome of the one external chat-completion call made by
generate_persona_response: the trimmed-to-be text delivered on success,
an APIStatusError with its status code, or any other exception with its
rendered message. -/
inductive LLMOutcome where
  | success (text : Str)
  | apiError (status : Nat)
  | exn (message : Str)
deriving DecidableEq

/-- The fixed 401 string of llm_handler.py line 51. -/
def authErrorMessage : Str :=
  "I\x27m sorry, but my connection to the mind-stream is reporting an invalid access key. Please ensure my operator has set up the OpenAI API key correctly.".data

/-- The fixed 429 rate-limit string of llm_handler.py line 53. -/
def rateLimitMessage : Str :=
  "My thoughts are racing, but I\x27m being asked to slow down. Please give me a moment before asking again.".data

/-- The fixed 400 string of llm_handler.py line 55. -/
def badRequestMessage : Str :=
  "My internal processing is encountering a complex input I cannot fully parse. Could you rephrase or simplify?".data

/-- The catch-all API status string of llm_handler.py line 57, an f-string
over the status code. -/
def genericApiMessage (status : Nat) : Str :=
  "I seem to have encountered a temporary disruption in my thought process (API Error: ".data ++
    (toString status).data ++ "). Please try again shortly.".data

/-- The unexpected-exception string of llm_handler.py line 60, an f-string
over the rendered exception. -/
def unexpectedErrorMessage (m : Str) : Str :=
  "I seem to have encountered an unexpected error in my thoughts: ".data ++ m

/-- llm_handler.generate_persona_response, as a function of the call
outcome: on success the stripped response text is returned; an
APIStatusError is mapped by status code (401, then 429, then 400, then
the generic branch) to its fixed in-character string; any other exception
is mapped to the generic in-character string.  The prompt construction
feeds only the external call and so does not affect the returned value. -/
def generate_persona_response (outcome : LLMOutcome) : Str :=
  match outcome with
  | .success t => pyStrip t
  | .apiError s =>
      if s = 401 then authErrorMessage
      else if s = 429 then rateLimitMessage
      else if s = 400 then badRequestMessage
      else genericApiMessage s
  | .exn m => unexpectedErrorMessage m

/-- One role-tagged entry of the session conversation history. -/
structure ChatMsg where
  role : Str
  content : Str
deriving DecidableEq

/-- The per-message pipeline of the UI controller (app.py lines 153-178):
append the user message to the history; when a heuristic fires its
template is the reply and neither the Emotion Engine nor the LLM runs;
otherwise the emotional state is updated, the LLM reply (delivered by the
oracle outcome) is cleaned and becomes the reply.  The reply is appended
to the history with the assistant role.  The final Boolean records
whether the LLM path ran. -/
def process_user_input (ps : PersonalityState) (hist : List ChatMsg) (input : Str)
    (llm : LLMOutcome) : PersonalityState × List ChatMsg × Bool :=
  match apply_decision_heuristics ps input with
  | some r =>
      (ps, (hist ++ [⟨"user".data, input⟩]) ++ [⟨"assistant".data, r⟩], false)
  | none =>
      let ps2 := update_emotional_state ps input
      let cleaned := extract_final_response ps2.name (generate_persona_response llm)
      (ps2, (hist ++ [⟨"user".data, input⟩]) ++ [⟨"assistant".data, cleaned⟩], true)

/-- Contiguous-occurrence relation: t occurs somewhere inside u.  This is
the specification-level meaning of the Python substring operator. -/
def PartOf (t u : Str) : Prop := ∃ a b, u = a ++ t ++ b

/-- Specification-level whole-word occurrence: w appears contiguously in
s and the neighbouring characters, when they exist, are not word
characters.  This is the meaning of the word-boundary-delimited patterns
of the Emotion Engine. -/
def WordBoundaryOccurs (w s : Str) : Prop :=
  ∃ pre post, s = pre ++ w ++ post ∧
    (pre = [] ∨ ∃ pre0 c0, pre = pre0 ++ [c0] ∧ isWordChar c0 = false) ∧
    (post = [] ∨ ∃ c1 post1, post = c1 :: post1 ∧ isWordChar c1 = false)

/-- A concrete persona record used to instantiate universally quantified
statements. -/
def samplePersona : PersonalityState :=
  { name := "Poe".data,
    traits := ["gloomy".data, "poetic".data],
    anchors := ["the raven".data],
    reasoning_style := "brooding".data,
    system_prompt := "You are Edgar Allan Poe.".data,
    emotional_state := "neutral".data,
    emotional_intensity := 5 }

/-- The sample persona at the lower intensity bound. -/
def zeroPersona : PersonalityState :=
  { samplePersona with emotional_intensity := 0 }

/-- The startswith test holds exactly when the text extends the pattern. -/
theorem strStarts_iff : ∀ p s : Str, strStarts p s = true ↔ ∃ rest, s = p ++ rest
  | [], s => by simp [strStarts]
  | a :: p, [] => by simp [strStarts]
  | a :: p, b :: s => by
      simp only [strStarts, Bool.and_eq_true, beq_iff_eq]
      constructor
      · rintro ⟨rfl, h⟩
        obtain ⟨rest, rfl⟩ := (strStarts_iff p s).mp h
        exact ⟨rest, rfl⟩
      · rintro ⟨rest, h⟩
        injection h with h1 h2
        exact ⟨h1.symm, (strStarts_iff p s).mpr ⟨rest, h2⟩⟩

/-- The endswith test holds exactly when the text ends with the pattern. -/
theorem strEnds_iff (p s : Str) : strEnds p s = true ↔ ∃ init, s = init ++ p := by
  unfold strEnds
  rw [strStarts_iff]
  constructor
  · rintro ⟨rest, h⟩
    refine ⟨rest.reverse, ?_⟩
    have h2 := congrArg List.reverse h
    simpa [List.reverse_append] using h2
  · rintro ⟨init, rfl⟩
    exact ⟨init.reverse, by simp [List.reverse_append]⟩

/-- The substring scan holds exactly when the pattern occurs contiguously. -/
theorem containsSub_iff (pat : Str) : ∀ s : Str, containsSub pat s = true ↔ PartOf pat s
  | [] => by
      rw [containsSub, strStarts_iff]
      unfold PartOf
      constructor
      · rintro ⟨rest, h⟩
        rcases List.append_eq_nil.mp h.symm with ⟨rfl, rfl⟩
        exact ⟨[], [], rfl⟩
      · rintro ⟨a, b, h⟩
        rcases List.append_eq_nil.mp h.symm with ⟨h1, rfl⟩
        rcases List.append_eq_nil.mp h1 with ⟨rfl, rfl⟩
        exact ⟨[], rfl⟩
  | c :: t => by
      rw [containsSub, Bool.or_eq_true, strStarts_iff, containsSub_iff pat t]
      constructor
      · rintro (⟨rest, h⟩ | ⟨a, b, h⟩)
        · exact ⟨[], rest, by simpa using h⟩
        · exact ⟨c :: a, b, by simp [h]⟩
      · rintro ⟨a, b, h⟩
        cases a with
        | nil => exact Or.inl ⟨b, by simpa using h⟩
        | cons d a2 =>
            right
            simp only [List.cons_append] at h
            injection h with h1 h2
            exact ⟨a2, b, h2⟩

/-- Contiguous occurrence is transitive. -/
theorem partOf_trans {t u v : Str} (h1 : PartOf t u) (h2 : PartOf u v) : PartOf t v := by
  obtain ⟨a, b, rfl⟩ := h1
  obtain ⟨c, d, rfl⟩ := h2
  exact ⟨c ++ a, b ++ d, by simp⟩

/-- Every text occurs inside itself. -/
theorem partOf_refl (s : Str) : PartOf s s := ⟨[], [], by simp⟩

/-- A trailing segment occurs inside the text. -/
theorem drop_partOf (n : Nat) (s : Str) : PartOf (s.drop n) s :=
  ⟨s.take n, [], by rw [List.append_nil, List.take_append_drop]⟩

/-- A leading segment occurs inside the text. -/
theorem take_partOf (n : Nat) (s : Str) : PartOf (s.take n) s :=
  ⟨[], s.drop n, by rw [List.nil_append, List.take_append_drop]⟩

/-- A pattern absent from a text is absent from every part of it. -/
theorem contains_false_of_partOf {pat t u : Str} (hu : containsSub pat u = false)
    (h : PartOf t u) : containsSub pat t = false := by
  rw [Bool.eq_false_iff] at hu ⊢
  intro hc
  exact hu ((containsSub_iff pat u).mpr (partOf_trans ((containsSub_iff pat t).mp hc) h))

/-- Stripping whitespace keeps a part of the text. -/
theorem pyStrip_partOf (s : Str) : PartOf (pyStrip s) s := by
  unfold pyStrip
  apply partOf_trans (u := s.dropWhile Char.isWhitespace)
  · refine ⟨[], ((s.dropWhile Char.isWhitespace).reverse.takeWhile Char.isWhitespace).reverse, ?_⟩
    rw [List.nil_append]
    have h := List.takeWhile_append_dropWhile Char.isWhitespace
      (s.dropWhile Char.isWhitespace).reverse
    have h2 := congrArg List.reverse h
    rw [List.reverse_append, List.reverse_reverse] at h2
    exact h2.symm
  · exact ⟨s.takeWhile Char.isWhitespace, [],
      by rw [List.append_nil, List.takeWhile_append_dropWhile]⟩

/-- Conditional removal of a leading marker keeps a part of the text. -/
theorem removePrefixIf_partOf (p s : Str) : PartOf (removePrefixIf p s) s := by
  unfold removePrefixIf
  split
  · exact drop_partOf _ _
  · exact partOf_refl _

/-- Conditional removal of a trailing marker keeps a part of the text. -/
theorem removeSuffixIf_partOf (p s : Str) : PartOf (removeSuffixIf p s) s := by
  unfold removeSuffixIf
  split
  · exact take_partOf _ _
  · exact partOf_refl _

/-- The language-tag heuristic keeps a part of the text. -/
theorem dropLangLine_partOf (s : Str) : PartOf (dropLangLine s) s := by
  unfold dropLangLine
  split
  · split
    · exact partOf_trans (pyStrip_partOf _) (drop_partOf _ _)
    · exact partOf_refl _
  · exact partOf_refl _

/-- The fence-stripping step keeps a part of the text. -/
theorem fenceStage_partOf (s : Str) : PartOf (fenceStage s) s := by
  unfold fenceStage
  split
  · exact partOf_trans (dropLangLine_partOf _)
      (partOf_trans (pyStrip_partOf _)
        (partOf_trans (removeSuffixIf_partOf _ _) (removePrefixIf_partOf _ _)))
  · exact partOf_refl _

/-- A consuming step of the split scan shortens the text. -/
theorem dropThroughFirst_length (sep : Str) (hsep : sep ≠ []) :
    ∀ s r : Str, dropThroughFirst sep s = some r → r.length < s.length := by
  intro s
  induction s with
  | nil => intro r h; simp [dropThroughFirst] at h
  | cons c t ih =>
      intro r h
      simp only [dropThroughFirst] at h
      by_cases hp : strStarts sep (c :: t) = true
      · rw [if_pos hp] at h
        injection h with h
        subst h
        rcases sep with _ | ⟨a, sep2⟩
        · exact absurd rfl hsep
        · simp only [List.length_drop, List.length_cons]
          omega
      · rw [if_neg hp] at h
        exact Nat.lt_trans (ih r h) (by simp)

/-- When the split scan finds nothing, the separator does not occur. -/
theorem dropThroughFirst_none (sep : Str) (hsep : sep ≠ []) :
    ∀ s : Str, dropThroughFirst sep s = none → containsSub sep s = false := by
  intro s
  induction s with
  | nil =>
      intro _
      rcases sep with _ | ⟨a, sep2⟩
      · exact absurd rfl hsep
      · rfl
  | cons c t ih =>
      intro h
      simp only [dropThroughFirst] at h
      by_cases hp : strStarts sep (c :: t) = true
      · rw [if_pos hp] at h; exact absurd h (by simp)
      · rw [if_neg hp] at h
        rw [containsSub, Bool.or_eq_false_iff]
        exact ⟨Bool.eq_false_iff.mpr hp, ih h⟩

/-- The remainder produced by a consuming step is part of the text. -/
theorem dropThroughFirst_partOf (sep : Str) :
    ∀ s r : Str, dropThroughFirst sep s = some r → PartOf r s := by
  intro s
  induction s with
  | nil => intro r h; simp [dropThroughFirst] at h
  | cons c t ih =>
      intro r h
      simp only [dropThroughFirst] at h
      by_cases hp : strStarts sep (c :: t) = true
      · rw [if_pos hp] at h
        injection h with h
        subst h
        exact drop_partOf _ _
      · rw [if_neg hp] at h
        obtain ⟨a, b, hab⟩ := ih r h
        exact ⟨c :: a, b, by simp [hab]⟩

/-- With enough fuel, the last field of the split contains no separator. -/
theorem lastSegFuel_notContains (sep : Str) (hsep : sep ≠ []) :
    ∀ (fuel : Nat) (s : Str), s.length ≤ fuel →
      containsSub sep (lastSegFuel sep fuel s) = false := by
  intro fuel
  induction fuel with
  | zero =>
      intro s hs
      have hnil : s = [] := List.eq_nil_of_length_eq_zero (Nat.le_zero.mp hs)
      subst hnil
      rcases sep with _ | ⟨a, sep2⟩
      · exact absurd rfl hsep
      · rfl
  | succ fuel ih =>
      intro s hs
      rw [lastSegFuel]
      cases h : dropThroughFirst sep s with
      | none => exact dropThroughFirst_none sep hsep s h
      | some r =>
          have hlt := dropThroughFirst_length sep hsep s r h
          exact ih r (by omega)

/-- The last field of the split is part of the text. -/
theorem lastSegFuel_partOf (sep : Str) :
    ∀ (fuel : Nat) (s : Str), PartOf (lastSegFuel sep fuel s) s := by
  intro fuel
  induction fuel with
  | zero => intro s; rw [lastSegFuel]; exact partOf_refl s
  | succ fuel ih =>
      intro s
      rw [lastSegFuel]
      cases h : dropThroughFirst sep s with
      | none => exact partOf_refl s
      | some r => exact partOf_trans (ih r) (dropThroughFirst_partOf sep s r h)

/-- The last field of the split contains no separator. -/
theorem lastSeg_notContains (sep s : Str) (hsep : sep ≠ []) :
    containsSub sep (lastSeg sep s) = false :=
  lastSegFuel_notContains sep hsep s.length s (Nat.le_refl _)

/-- The last field of the split is part of the text. -/
theorem lastSeg_partOf (sep s : Str) : PartOf (lastSeg sep s) s :=
  lastSegFuel_partOf sep s.length s

/-- After a marker cut, the marker no longer occurs. -/
theorem cutAfter_notContains (sep s : Str) (hsep : sep ≠ []) :
    containsSub sep (cutAfter sep s) = false := by
  unfold cutAfter
  by_cases h : containsSub sep s = true
  · rw [if_pos h]
    exact contains_false_of_partOf (lastSeg_notContains sep s hsep) (pyStrip_partOf _)
  · rw [if_neg h]
    exact Bool.eq_false_iff.mpr h

/-- A marker cut keeps a part of the text. -/
theorem cutAfter_partOf (sep s : Str) : PartOf (cutAfter sep s) s := by
  unfold cutAfter
  split
  · exact partOf_trans (pyStrip_partOf _) (lastSeg_partOf sep s)
  · exact partOf_refl s

/-- A marker cut is the identity when the marker is absent. -/
theorem cutAfter_of_not {sep s : Str} (h : containsSub sep s = false) :
    cutAfter sep s = s := by
  unfold cutAfter
  rw [if_neg (by simp [h])]

/-- The fence-stripping step is the identity when the fence test fails. -/
theorem fenceStage_of_not {s : Str}
    (h : (strStarts fenceMarker s && strEnds fenceMarker s) = false) :
    fenceStage s = s := by
  unfold fenceStage
  rw [if_neg (by simp [h])]

/-- The persona marker always begins with the fixed text Respond as. -/
theorem respondMarker_ne_nil (name : Str) : respondMarker name ≠ [] := by
  have hR : respondMarker name = 'R' :: ("espond as ".data ++ name ++ ",".data) := rfl
  rw [hR]
  simp

/-- No output of the cleaner contains any of the three markers: each
marker cut removes its own marker, and every later stage keeps only a
part of the text. -/
theorem extract_no_markers (name x : Str) :
    containsSub userMarker (extract_final_response name x) = false ∧
    containsSub (respondMarker name) (extract_final_response name x) = false ∧
    containsSub responseMarker (extract_final_response name x) = false := by
  have humne : userMarker ≠ ([] : Str) := by decide
  have hpmne : responseMarker ≠ ([] : Str) := by decide
  have hE : extract_final_response name x =
      fenceStage (cutAfter responseMarker (cutAfter (respondMarker name)
        (cutAfter userMarker x))) := rfl
  have p21 : PartOf (cutAfter (respondMarker name) (cutAfter userMarker x))
      (cutAfter userMarker x) := cutAfter_partOf _ _
  have p32 : PartOf (cutAfter responseMarker (cutAfter (respondMarker name)
      (cutAfter userMarker x))) (cutAfter (respondMarker name) (cutAfter userMarker x)) :=
    cutAfter_partOf _ _
  have pE3 : PartOf (extract_final_response name x)
      (cutAfter responseMarker (cutAfter (respondMarker name) (cutAfter userMarker x))) := by
    rw [hE]; exact fenceStage_partOf _
  refine ⟨?_, ?_, ?_⟩
  · exact contains_false_of_partOf
      (contains_false_of_partOf
        (contains_false_of_partOf (cutAfter_notContains userMarker x humne) p21) p32) pE3
  · exact contains_false_of_partOf
      (contains_false_of_partOf
        (cutAfter_notContains (respondMarker name) _ (respondMarker_ne_nil name)) p32) pE3
  · exact contains_false_of_partOf
      (cutAfter_notContains responseMarker _ hpmne) pE3

/-- Correctness of the word-boundary scanner: with prevOk recording
whether the character just before the scanned suffix is absent or not a
word character, the scanner accepts exactly the boundary-delimited
occurrences. -/
theorem hasWordAux_iff (w : Str) :
    ∀ (s : Str) (prevOk : Bool),
      hasWordAux w prevOk s = true ↔
        ∃ pre post, s = pre ++ w ++ post ∧
          ((pre = [] ∧ prevOk = true) ∨
            ∃ pre0 c0, pre = pre0 ++ [c0] ∧ isWordChar c0 = false) ∧
          (post = [] ∨ ∃ c1 post1, post = c1 :: post1 ∧ isWordChar c1 = false) := by
  intro s
  induction s with
  | nil =>
      intro prevOk
      simp only [hasWordAux, Bool.and_eq_true]
      constructor
      · rintro ⟨⟨hprev, hw⟩, -⟩
        obtain ⟨rest, hrest⟩ := (strStarts_iff w []).mp hw
        rcases List.append_eq_nil.mp hrest.symm with ⟨rfl, rfl⟩
        exact ⟨[], [], rfl, Or.inl ⟨rfl, hprev⟩, Or.inl rfl⟩
      · rintro ⟨pre, post, hs, hpre, hpost⟩
        rcases List.append_eq_nil.mp hs.symm with ⟨h1, rfl⟩
        rcases List.append_eq_nil.mp h1 with ⟨rfl, rfl⟩
        refine ⟨⟨?_, (strStarts_iff [] []).mpr ⟨[], rfl⟩⟩, rfl⟩
        rcases hpre with ⟨-, h⟩ | ⟨pre0, c0, h, -⟩
        · exact h
        · exact absurd h (by simp)
  | cons c t ih =>
      intro prevOk
      simp only [hasWordAux, Bool.or_eq_true, Bool.and_eq_true]
      constructor
      · rintro (⟨⟨hprev, hw⟩, hba⟩ | hrec)
        · obtain ⟨post, hpost⟩ := (strStarts_iff w (c :: t)).mp hw
          refine ⟨[], post, by simpa using hpost, Or.inl ⟨rfl, hprev⟩, ?_⟩
          unfold boundAfter at hba
          rw [hpost, List.drop_left] at hba
          cases post with
          | nil => exact Or.inl rfl
          | cons c1 post1 => exact Or.inr ⟨c1, post1, rfl, by simpa using hba⟩
        · obtain ⟨pre, post, hs, hpre, hpost⟩ := (ih (!isWordChar c)).mp hrec
          refine ⟨c :: pre, post, by simp [hs], ?_, hpost⟩
          rcases hpre with ⟨rfl, hprev⟩ | ⟨pre0, c0, rfl, hc0⟩
          · exact Or.inr ⟨[], c, by simp, by simpa using hprev⟩
          · exact Or.inr ⟨c :: pre0, c0, by simp, hc0⟩
      · rintro ⟨pre, post, hs, hpre, hpost⟩
        cases pre with
        | nil =>
            refine Or.inl ⟨⟨?_, (strStarts_iff w (c :: t)).mpr ⟨post, by simpa using hs⟩⟩, ?_⟩
            · rcases hpre with ⟨-, h⟩ | ⟨pre0, c0, h, -⟩
              · exact h
              · exact absurd h (by simp)
            · unfold boundAfter
              rw [show (c :: t) = w ++ post from by simpa using hs, List.drop_left]
              rcases hpost with rfl | ⟨c1, post1, rfl, hc1⟩
              · rfl
              · simp [hc1]
        | cons p pre2 =>
            right
            have hcp : c = p ∧ t = pre2 ++ w ++ post := by
              simp only [List.cons_append] at hs
              exact ⟨by injection hs, by injection hs⟩
            obtain ⟨rfl, hs2⟩ := hcp
            apply (ih (!isWordChar c)).mpr
            refine ⟨pre2, post, hs2, ?_, hpost⟩
            rcases hpre with ⟨h, -⟩ | ⟨pre0, c0, hp, hc0⟩
            · exact absurd h (by simp)
            · cases pre0 with
              | nil =>
                  rw [List.nil_append] at hp
                  have hc0c : c = c0 ∧ pre2 = [] := ⟨by injection hp, by injection hp⟩
                  obtain ⟨rfl, rfl⟩ := hc0c
                  exact Or.inl ⟨rfl, by simp [hc0]⟩
              | cons q pre0' =>
                  simp only [List.cons_append] at hp
                  have hq : pre2 = pre0' ++ [c0] := by injection hp
                  exact Or.inr ⟨pre0', c0, hq, hc0⟩

/-- The Emotion Engine pattern search accepts exactly the whole-word
occurrences. -/
theorem hasWord_iff (w s : Str) : hasWord w s = true ↔ WordBoundaryOccurs w s := by
  unfold hasWord WordBoundaryOccurs
  rw [hasWordAux_iff]
  constructor
  · rintro ⟨pre, post, hs, hpre, hpost⟩
    refine ⟨pre, post, hs, ?_, hpost⟩
    rcases hpre with ⟨rfl, -⟩ | h
    · exact Or.inl rfl
    · exact Or.inr h
  · rintro ⟨pre, post, hs, hpre, hpost⟩
    refine ⟨pre, post, hs, ?_, hpost⟩
    rcases hpre with rfl | h
    · exact Or.inl ⟨rfl, rfl⟩
    · exact Or.inr h

/-- A first-match scan returns the unique satisfying element. -/
theorem find_eq_of_unique {α : Type} (p : α → Bool) :
    ∀ (l : List α) (r : α), r ∈ l → p r = true →
      (∀ x ∈ l, p x = true → x = r) → l.find? p = some r := by
  intro l
  induction l with
  | nil => intro r hr _ _; exact absurd hr (List.not_mem_nil r)
  | cons a t ih =>
      intro r hr hp huniq
      by_cases ha : p a = true
      · have haa : a = r := huniq a (List.mem_cons_self a t) ha
        subst haa
        exact List.find?_cons_of_pos t ha
      · rw [List.find?_cons_of_neg t (by simpa using ha)]
        rcases List.mem_cons.mp hr with rfl | hrt
        · exact absurd hp ha
        · exact ih r hrt hp (fun x hx hpx => huniq x (List.mem_cons_of_mem a hx) hpx)

/-- A first-match scan skips a failing front segment and returns the
satisfying element at its head position. -/
theorem find_append_first {α : Type} (p : α → Bool) :
    ∀ (l1 : List α) (r : α) (l2 : List α),
      (∀ x ∈ l1, p x = false) → p r = true →
      (l1 ++ r :: l2).find? p = some r := by
  intro l1
  induction l1 with
  | nil =>
      intro r l2 _ hp
      rw [List.nil_append]
      exact List.find?_cons_of_pos l2 hp
  | cons a t ih =>
      intro r l2 hall hp
      have ha : p a = false := hall a (List.mem_cons_self a t)
      rw [List.cons_append, List.find?_cons_of_neg _ (by simp [ha])]
      exact ih r l2 (fun x hx => hall x (List.mem_cons_of_mem a hx)) hp

/-- When no heuristic fires, the pipeline takes the LLM path: it updates
the emotional state, cleans the generated reply and appends it with the
assistant role. -/
theorem process_llm_path (ps : PersonalityState) (hist : List ChatMsg) (input : Str)
    (llm : LLMOutcome) (h : apply_decision_heuristics ps input = none) :
    process_user_input ps hist input llm =
      (update_emotional_state ps input,
       (hist ++ [⟨"user".data, input⟩]) ++
         [⟨"assistant".data,
           extract_final_response (update_emotional_state ps input).name
             (generate_persona_response llm)⟩], true) := by
  unfold process_user_input
  rw [h]

/-- Claim C1: for every state and input matching exactly one Emotion
Engine rule, the update sets the emotional state to that rule label and
the intensity to the clamped sum with that rule delta; for an input
matching no rule the state is unchanged. -/
theorem emotion_update_single_rule :
    (∀ (ps : PersonalityState) (input : Str) (r : Str × Str × Int),
        r ∈ triggers → ruleFires input r = true →
        (∀ r2 ∈ triggers, ruleFires input r2 = true → r2 = r) →
        update_emotional_state ps input =
          { ps with emotional_state := r.2.1,
                    emotional_intensity := clampIntensity (ps.emotional_intensity + r.2.2) }) ∧
    (∀ (ps : PersonalityState) (input : Str),
        (∀ r ∈ triggers, ruleFires input r = false) →
        update_emotional_state ps input = ps) := by
  constructor
  · intro ps input r hr hfire huniq
    unfold update_emotional_state
    rw [find_eq_of_unique (ruleFires input) triggers r hr hfire huniq]
  · intro ps input hall
    unfold update_emotional_state
    rw [List.find?_eq_none.mpr (fun x hx => by simp [hall x hx])]

/-- Witness for C1 at concrete inputs: the input containing only the
trigger fear fires the anxious rule, and a triggerless input leaves the
sample persona unchanged. -/
theorem emotion_update_single_rule_witness :
    update_emotional_state samplePersona "The fear is real".data =
      { samplePersona with emotional_state := "anxious".data, emotional_intensity := 6 } ∧
    update_emotional_state samplePersona "Good evening".data = samplePersona :=
  ⟨(emotion_update_single_rule.1 samplePersona "The fear is real".data
      ("fear".data, "anxious".data, 1) (by decide) (by decide) (by decide)).trans (by decide),
   emotion_update_single_rule.2 samplePersona "Good evening".data (by decide)⟩

/-- Claim C2 counterexample: on an input containing both mortality and
hope (and no earlier trigger) the code yields reflective, not the
introspective outcome stated by the specification, because hope is
listed before mortality in the trigger table. -/
theorem mortality_hope_counterexample :
    (update_emotional_state samplePersona "Speak of mortality and hope".data).emotional_state =
        "reflective".data ∧
    (update_emotional_state samplePersona "Speak of mortality and hope".data).emotional_state ≠
        "introspective".data ∧
    (update_emotional_state samplePersona
        "Speak of mortality and hope".data).emotional_intensity = 4 := by
  decide

/-- Claim C2 (amended): for every input matching several rules only the
rule listed earliest in the table applies; in particular an input
containing both mortality and hope with no earlier trigger yields
reflective with intensity clamp(old - 1, 0, 10), because hope precedes
mortality in the declaration order. -/
theorem emotion_rule_priority :
    (∀ (ps : PersonalityState) (input : Str) (l1 : List (Str × Str × Int))
        (r : Str × Str × Int) (l2 : List (Str × Str × Int)),
        triggers = l1 ++ r :: l2 →
        (∀ x ∈ l1, ruleFires input x = false) → ruleFires input r = true →
        update_emotional_state ps input =
          { ps with emotional_state := r.2.1,
                    emotional_intensity := clampIntensity (ps.emotional_intensity + r.2.2) }) ∧
    (∀ (ps : PersonalityState) (input : Str),
        ruleFires input ("mortality".data, "introspective".data, 2) = true →
        ruleFires input ("hope".data, "reflective".data, -1) = true →
        ruleFires input ("death".data, "melancholy".data, 2) = false →
        ruleFires input ("love".data, "nostalgic".data, 1) = false →
        ruleFires input ("fear".data, "anxious".data, 1) = false →
        update_emotional_state ps input =
          { ps with emotional_state := "reflective".data,
                    emotional_intensity :=
                      clampIntensity (ps.emotional_intensity + (-1)) }) := by
  have hA : ∀ (ps : PersonalityState) (input : Str) (l1 : List (Str × Str × Int))
      (r : Str × Str × Int) (l2 : List (Str × Str × Int)),
      triggers = l1 ++ r :: l2 →
      (∀ x ∈ l1, ruleFires input x = false) → ruleFires input r = true →
      update_emotional_state ps input =
        { ps with emotional_state := r.2.1,
                  emotional_intensity := clampIntensity (ps.emotional_intensity + r.2.2) } := by
    intro ps input l1 r l2 htr hall hfire
    unfold update_emotional_state
    rw [htr, find_append_first (ruleFires input) l1 r l2 hall hfire]
  refine ⟨hA, ?_⟩
  intro ps input hm hh hd hl hf
  exact hA ps input
    [("death".data, "melancholy".data, 2), ("love".data, "nostalgic".data, 1),
     ("fear".data, "anxious".data, 1)]
    ("hope".data, "reflective".data, -1)
    [("raven".data, "curious".data, 1), ("mortality".data, "introspective".data, 2)]
    rfl
    (by
      intro x hx
      rcases List.mem_cons.mp hx with rfl | hx
      · exact hd
      rcases List.mem_cons.mp hx with rfl | hx
      · exact hl
      rcases List.mem_cons.mp hx with rfl | hx
      · exact hf
      exact absurd hx (List.not_mem_nil x))
    hh

/-- Witness for the amended C2 at a concrete input containing mortality
and hope and no earlier trigger. -/
theorem emotion_rule_priority_witness :
    update_emotional_state samplePersona "Speak of mortality, speak of hope".data =
      { samplePersona with emotional_state := "reflective".data, emotional_intensity := 4 } :=
  (emotion_rule_priority.2 samplePersona "Speak of mortality, speak of hope".data
      (by decide) (by decide) (by decide) (by decide) (by decide)).trans (by decide)

/-- Claim C3: the update keeps the intensity inside the interval from 0
to 10, and from intensity 0 an input containing hope leaves the
intensity at 0 rather than -1. -/
theorem intensity_invariant :
    (∀ (ps : PersonalityState) (input : Str),
        0 ≤ ps.emotional_intensity → ps.emotional_intensity ≤ 10 →
        0 ≤ (update_emotional_state ps input).emotional_intensity ∧
          (update_emotional_state ps input).emotional_intensity ≤ 10) ∧
    (∀ ps : PersonalityState, ps.emotional_intensity = 0 →
        (update_emotional_state ps "There is hope yet".data).emotional_intensity = 0) := by
  constructor
  · intro ps input h0 h10
    unfold update_emotional_state
    cases triggers.find? (ruleFires input) with
    | none => exact ⟨h0, h10⟩
    | some r =>
        refine ⟨le_max_left 0 _, max_le (by norm_num) (min_le_right _ 10)⟩
  · intro ps h0
    have hfind : triggers.find? (ruleFires "There is hope yet".data) =
        some ("hope".data, "reflective".data, -1) := by decide
    unfold update_emotional_state
    rw [hfind]
    show clampIntensity (ps.emotional_intensity + (-1)) = 0
    rw [h0]
    decide

/-- Witness for C3 at concrete states: the sample persona stays inside
the interval on a raven input, and the zero-intensity persona stays at 0
on a hope input. -/
theorem intensity_invariant_witness :
    (0 ≤ (update_emotional_state samplePersona "the raven".data).emotional_intensity ∧
      (update_emotional_state samplePersona "the raven".data).emotional_intensity ≤ 10) ∧
    (update_emotional_state zeroPersona "There is hope yet".data).emotional_intensity = 0 :=
  ⟨intensity_invariant.1 samplePersona "the raven".data (by decide) (by decide),
   intensity_invariant.2 zeroPersona (by decide)⟩

/-- Claim C10: the update touches at most the emotional state and
intensity: name, traits, anchors, reasoning style and system prompt are
unchanged by every call. -/
theorem emotion_update_frame (ps : PersonalityState) (input : Str) :
    (update_emotional_state ps input).name = ps.name ∧
    (update_emotional_state ps input).traits = ps.traits ∧
    (update_emotional_state ps input).anchors = ps.anchors ∧
    (update_emotional_state ps input).reasoning_style = ps.reasoning_style ∧
    (update_emotional_state ps input).system_prompt = ps.system_prompt := by
  unfold update_emotional_state
  cases triggers.find? (ruleFires input) with
  | none => exact ⟨rfl, rfl, rfl, rfl, rfl⟩
  | some r => exact ⟨rfl, rfl, rfl, rfl, rfl⟩

/-- Claim C4 counterexample: the cleaner is not idempotent on arbitrary
input: on a text of three fences the first pass yields a bare fence and
the second pass erases it. -/
theorem cleaner_not_idempotent :
    extract_final_response "Poe".data
        (extract_final_response "Poe".data "``` ``` ```".data) ≠
      extract_final_response "Poe".data "``` ``` ```".data := by
  decide

/-- Claim C4 (amended): the cleaner is idempotent on every input whose
cleaned output does not itself both start and end with a triple-backtick
fence; on such outputs every marker is already gone, so only the fence
strip could act again. -/
theorem cleaner_idempotent_unless_fenced (name x : Str)
    (h : (strStarts fenceMarker (extract_final_response name x) &&
           strEnds fenceMarker (extract_final_response name x)) = false) :
    extract_final_response name (extract_final_response name x) =
      extract_final_response name x := by
  obtain ⟨h1, h2, h3⟩ := extract_no_markers name x
  show fenceStage (cutAfter responseMarker (cutAfter (respondMarker name)
    (cutAfter userMarker (extract_final_response name x)))) = _
  rw [cutAfter_of_not h1, cutAfter_of_not h2, cutAfter_of_not h3, fenceStage_of_not h]

/-- Witness for the amended C4 at a concrete raw text whose cleaned
output is not fence-delimited. -/
theorem cleaner_idempotent_unless_fenced_witness :
    ((strStarts fenceMarker (extract_final_response "Poe".data "RESPONSE: All is well".data) &&
       strEnds fenceMarker (extract_final_response "Poe".data "RESPONSE: All is well".data)) =
      false) ∧
    extract_final_response "Poe".data
        (extract_final_response "Poe".data "RESPONSE: All is well".data) =
      extract_final_response "Poe".data "RESPONSE: All is well".data :=
  ⟨by decide,
   cleaner_idempotent_unless_fenced "Poe".data "RESPONSE: All is well".data (by decide)⟩

/-- Claim C5: a 429 outcome of the LLM call yields the fixed in-character
rate-limit string verbatim; the cleaner leaves that string untouched for
every persona name; the pipeline then appends exactly that string to the
history with the assistant role; and every classified API failure maps
to one of the fixed in-character strings instead of propagating. -/
theorem rate_limit_degrades :
    generate_persona_response (LLMOutcome.apiError 429) = rateLimitMessage ∧
    (∀ name : Str, extract_final_response name rateLimitMessage = rateLimitMessage) ∧
    (∀ (ps : PersonalityState) (hist : List ChatMsg) (input : Str),
        apply_decision_heuristics ps input = none →
        process_user_input ps hist input (LLMOutcome.apiError 429) =
          (update_emotional_state ps input,
           (hist ++ [⟨"user".data, input⟩]) ++
             [⟨"assistant".data, rateLimitMessage⟩], true)) ∧
    (∀ status : Nat,
        generate_persona_response (LLMOutcome.apiError status) = authErrorMessage ∨
        generate_persona_response (LLMOutcome.apiError status) = rateLimitMessage ∨
        generate_persona_response (LLMOutcome.apiError status) = badRequestMessage ∨
        generate_persona_response (LLMOutcome.apiError status) = genericApiMessage status) := by
  have hclean : ∀ name : Str, extract_final_response name rateLimitMessage = rateLimitMessage := by
    intro name
    have h1 : containsSub userMarker rateLimitMessage = false := by decide
    have h2 : containsSub (respondMarker name) rateLimitMessage = false := by
      rw [Bool.eq_false_iff]
      intro hc
      have hp : PartOf (respondMarker name) rateLimitMessage := (containsSub_iff _ _).mp hc
      have hpre : PartOf "Respond as ".data (respondMarker name) :=
        ⟨[], name ++ ",".data, by simp [respondMarker]⟩
      have hffix : containsSub "Respond as ".data rateLimitMessage = false := by decide
      rw [Bool.eq_false_iff] at hffix
      exact hffix ((containsSub_iff _ _).mpr (partOf_trans hpre hp))
    have h3 : containsSub responseMarker rateLimitMessage = false := by decide
    show fenceStage (cutAfter responseMarker (cutAfter (respondMarker name)
      (cutAfter userMarker rateLimitMessage))) = rateLimitMessage
    rw [cutAfter_of_not h1, cutAfter_of_not h2, cutAfter_of_not h3,
      fenceStage_of_not (by decide)]
  refine ⟨rfl, hclean, ?_, ?_⟩
  · intro ps hist input h
    rw [process_llm_path ps hist input (LLMOutcome.apiError 429) h]
    rw [show generate_persona_response (LLMOutcome.apiError 429) = rateLimitMessage from rfl]
    rw [hclean]
  · intro status
    by_cases h1 : status = 401
    · subst h1; exact Or.inl rfl
    by_cases h2 : status = 429
    · subst h2; exact Or.inr (Or.inl rfl)
    by_cases h3 : status = 400
    · subst h3; exact Or.inr (Or.inr (Or.inl rfl))
    refine Or.inr (Or.inr (Or.inr ?_))
    show (if status = 401 then authErrorMessage
      else if status = 429 then rateLimitMessage
      else if status = 400 then badRequestMessage
      else genericApiMessage status) = genericApiMessage status
    rw [if_neg h1, if_neg h2, if_neg h3]

/-- Witness for C5 at a concrete heuristic-free input and history. -/
theorem rate_limit_degrades_witness :
    apply_decision_heuristics samplePersona "What time is it?".data = none ∧
    process_user_input samplePersona [] "What time is it?".data (LLMOutcome.apiError 429) =
      (update_emotional_state samplePersona "What time is it?".data,
       [⟨"user".data, "What time is it?".data⟩,
        ⟨"assistant".data, rateLimitMessage⟩], true) :=
  ⟨by decide,
   (rate_limit_degrades.2.2.1 samplePersona [] "What time is it?".data (by decide)).trans
     (by decide)⟩

/-- Claim C6: the heuristic responder performs a case-insensitive
substring match (the scan agrees with contiguous occurrence) of the
triggers death, love, raven in declaration order, returning the first
matching rendered template, and absence otherwise; on absence the caller
proceeds to the LLM path. -/
theorem heuristics_substring_match :
    (∀ pat s : Str, containsSub pat s = true ↔ PartOf pat s) ∧
    (∀ (ps : PersonalityState) (input : Str),
        (containsSub "death".data (toLowerStr input) = true →
          apply_decision_heuristics ps input = some (deathTemplate ps.name)) ∧
        (containsSub "death".data (toLowerStr input) = false →
          containsSub "love".data (toLowerStr input) = true →
          apply_decision_heuristics ps input = some loveTemplate) ∧
        (containsSub "death".data (toLowerStr input) = false →
          containsSub "love".data (toLowerStr input) = false →
          containsSub "raven".data (toLowerStr input) = true →
          apply_decision_heuristics ps input = some ravenTemplate) ∧
        (containsSub "death".data (toLowerStr input) = false →
          containsSub "love".data (toLowerStr input) = false →
          containsSub "raven".data (toLowerStr input) = false →
          apply_decision_heuristics ps input = none)) ∧
    (∀ (ps : PersonalityState) (hist : List ChatMsg) (input : Str) (llm : LLMOutcome),
        apply_decision_heuristics ps input = none →
        process_user_input ps hist input llm =
          (update_emotional_state ps input,
           (hist ++ [⟨"user".data, input⟩]) ++
             [⟨"assistant".data,
               extract_final_response (update_emotional_state ps input).name
                 (generate_persona_response llm)⟩], true)) := by
  refine ⟨containsSub_iff, ?_, process_llm_path⟩
  intro ps input
  refine ⟨?_, ?_, ?_, ?_⟩
  · intro hd
    unfold apply_decision_heuristics
    rw [if_pos hd]
  · intro hd hl
    unfold apply_decision_heuristics
    rw [if_neg (by simp [hd]), if_pos hl]
  · intro hd hl hr
    unfold apply_decision_heuristics
    rw [if_neg (by simp [hd]), if_neg (by simp [hl]), if_pos hr]
  · intro hd hl hr
    unfold apply_decision_heuristics
    rw [if_neg (by simp [hd]), if_neg (by simp [hl]), if_neg (by simp [hr])]

/-- Witness for C6 at concrete inputs: love occurs inside Lovely (looser
than word-boundary matching) and fires its template; a triggerless input
yields absence and the pipeline then takes the LLM path. -/
theorem heuristics_substring_match_witness :
    PartOf "love".data (toLowerStr "Lovely weather".data) ∧
    apply_decision_heuristics samplePersona "Lovely weather".data = some loveTemplate ∧
    process_user_input samplePersona [] "Good evening".data (LLMOutcome.success "Hello.".data) =
      (update_emotional_state samplePersona "Good evening".data,
       [⟨"user".data, "Good evening".data⟩,
        ⟨"assistant".data,
          extract_final_response (update_emotional_state samplePersona "Good evening".data).name
            (generate_persona_response (LLMOutcome.success "Hello.".data))⟩], true) :=
  ⟨(heuristics_substring_match.1 "love".data (toLowerStr "Lovely weather".data)).mp (by decide),
   (heuristics_substring_match.2.1 samplePersona "Lovely weather".data).2.1
     (by decide) (by decide),
   (heuristics_substring_match.2.2 samplePersona [] "Good evening".data
       (LLMOutcome.success "Hello.".data) (by decide)).trans (by decide)⟩

/-- Claim C7: on the raven input with the persona named Poe the pipeline
returns the fixed raven template, the LLM path never runs, and the
persona state (hence its emotional state and intensity) is unchanged. -/
theorem raven_shortcircuit (ps : PersonalityState) (hist : List ChatMsg) (llm : LLMOutcome)
    (hname : ps.name = "Poe".data) :
    process_user_input ps hist "Tell me about the raven outside".data llm =
      (ps, (hist ++ [⟨"user".data, "Tell me about the raven outside".data⟩]) ++
        [⟨"assistant".data, ravenTemplate⟩], false) := by
  have hh : apply_decision_heuristics ps "Tell me about the raven outside".data =
      some ravenTemplate := by
    unfold apply_decision_heuristics
    rw [if_neg (by decide), if_neg (by decide), if_pos (by decide)]
  unfold process_user_input
  rw [hh]

/-- Witness for C7 at the sample persona with an erroring LLM oracle that
is never consulted. -/
theorem raven_shortcircuit_witness :
    process_user_input samplePersona [] "Tell me about the raven outside".data
        (LLMOutcome.apiError 500) =
      (samplePersona, [⟨"user".data, "Tell me about the raven outside".data⟩,
        ⟨"assistant".data, ravenTemplate⟩], false) :=
  (raven_shortcircuit samplePersona [] (LLMOutcome.apiError 500) (by decide)).trans (by decide)

/-- Claim C8: the Emotion Engine matches with word-boundary semantics on
the lowercased input: the scanner agrees with whole-word occurrence, a
whole-word death input fires the melancholy rule, and an input containing
only deathly fires no rule and leaves the state unchanged. -/
theorem word_boundary_semantics :
    (∀ w s : Str, hasWord w s = true ↔ WordBoundaryOccurs w s) ∧
    (∀ ps : PersonalityState,
        (update_emotional_state ps "Death comes to all".data).emotional_state =
          "melancholy".data ∧
        (update_emotional_state ps "Death comes to all".data).emotional_intensity =
          clampIntensity (ps.emotional_intensity + 2)) ∧
    (∀ ps : PersonalityState, update_emotional_state ps "A deathly hush".data = ps) := by
  refine ⟨hasWord_iff, ?_, ?_⟩
  · intro ps
    have hfind : triggers.find? (ruleFires "Death comes to all".data) =
        some ("death".data, "melancholy".data, 2) := by decide
    unfold update_emotional_state
    rw [hfind]
    exact ⟨rfl, rfl⟩
  · intro ps
    have hfind : triggers.find? (ruleFires "A deathly hush".data) = none := by decide
    unfold update_emotional_state
    rw [hfind]

/-- Witness for C8: a concrete whole-word occurrence of death obtained
through the scanner, and the two concrete engine runs at the sample
persona. -/
theorem word_boundary_semantics_witness :
    WordBoundaryOccurs "death".data "a death foretold".data ∧
    (update_emotional_state samplePersona "Death comes to all".data).emotional_state =
      "melancholy".data ∧
    update_emotional_state samplePersona "A deathly hush".data = samplePersona :=
  ⟨(word_boundary_semantics.1 "death".data "a death foretold".data).mp (by decide),
   (word_boundary_semantics.2.1 samplePersona).1,
   word_boundary_semantics.2.2 samplePersona⟩

/-- Claim C9: on the documented raw example, with persona name Poe (whose
marker does not occur in the text), the cleaner cuts the two markers,
strips the fence and drops the language tag line, returning exactly
Hello there. -/
theorem cleaner_example :
    containsSub (respondMarker "Poe".data)
        "USER MESSAGE: hi\nRESPONSE:\n```text\nHello there```".data = false ∧
    extract_final_response "Poe".data
        "USER MESSAGE: hi\nRESPONSE:\n```text\nHello there```".data = "Hello there".data := by
  decide

end ShaiMind
